import Mathlib

/-!
Verification development for `scripts/fdp_stats.cc` (FEMU FDP statistics CLI).

The program is a single `main` plus one completion callback `async_cb`.  We
embed it shallowly: every external xnvme call is an oracle recorded in an
`Env`, and the program is a pure function from the argument vector and the
oracle to the process exit status together with the ordered trace of
observable actions (device calls, allocations, releases and diagnostic
messages).  Machine integers that matter (`err : int`, queue indices,
`nruhsd : uint16_t`) are modelled as `Int`/`Nat`; no arithmetic in the
program can overflow (all values involved stay far below the type bounds:
indices < 128, `mo` ∈ {0x2, 0x10}, `mos = 1`).
-/

namespace FdpStats

/-- `#define BUF_SIZE (1 << 20)` (fdp_stats.cc line 8). -/
def BUF_SIZE : Nat := 1 <<< 20

/-- `#define MAX_NR_QUEUE 128` (line 9). -/
def MAX_NR_QUEUE : Nat := 128

/-- `enum NvmeIomsMo` (lines 14-19). -/
def NVME_IOMS_MO_NOP : Nat := 0x0

def NVME_IOMS_MO_RUH_UPDATE : Nat := 0x1

def NVME_IOMS_MO_SUNGJIN : Nat := 0x2

def NVME_IOMS_MO_SUNGJIN_READONLY : Nat := 0x10

/-- `struct nvme_fdp_ruh_status_desc` (lines 21-27): the four value fields;
the 16 reserved bytes carry no information used by the program. -/
structure RuhStatusDesc where
  pid : Nat
  ruhid : Nat
  earutr : Nat
  ruamw : Nat
deriving DecidableEq, Repr

/-- `struct nvme_fdp_ruh_status` (lines 29-33).  The C declaration has a
16-slot array `ruhss[16]`; we model the memory that an index expression
`ruhss[i]` would read as a total function on `Nat`, so that the question
whether the program ever reads a slot at index ≥ 16 is expressible (it would
be an out-of-bounds read in C). -/
structure RuhStatus where
  nruhsd : Nat
  ruhss : Nat → RuhStatusDesc

/-- Which object the response-pointer argument of `xnvme_nvm_mgmt_send`
designates.  The source passes `&ruh_status` (the fixed-size local struct,
line 159); the allocated 1 MiB buffer would be the other candidate. -/
inductive RespPtr
  | ruhStatusLocal
  | allocBuf
deriving DecidableEq, Repr

/-- Observable actions of `main`, in program order.  Each constructor is
annotated with the source line it embeds. -/
inductive Event
  | usagePrinted                                            -- print_usage, lines 45-55
  | unknownOptionMsg                                        -- line 79
  | devOpenAttempt (device : String)                        -- xnvme_dev_open, line 105
  | devOpenFailMsg                                          -- lines 107-110
  | devOpened                                               -- line 113
  | queueInit (i : Nat)                                     -- xnvme_queue_init success, line 122
  | queueInitFailMsg (i : Nat)                              -- line 124
  | bufAlloc                                                -- xnvme_buf_alloc success, line 133
  | bufAllocFailMsg                                         -- line 135
  | ctxAcquired                                             -- lines 144-149
  | mgmtSend (nsid : Nat) (mo : Nat) (mos : Nat) (resp : RespPtr) -- line 159
  | sendWarnMsg (err : Int)                                 -- lines 161-162
  | drainCall                                               -- xnvme_queue_drain, line 166
  | drainWarnMsg (err : Int)                                -- line 168
  | completeBanner                                          -- line 171
  | resetMsg                                                -- line 174
  | unchangedMsg                                            -- line 176
  | ruhTable (descs : List RuhStatusDesc)                   -- lines 181-191
  | bufFree                                                 -- xnvme_buf_free, line 195
  | queueTerm (i : Nat)                                     -- xnvme_queue_term, lines 137 and 197
  | queueTermWarnMsg (i : Nat)                              -- line 199
  | devClose                                                -- xnvme_dev_close, lines 125, 139, 202
  | doneMsg                                                 -- line 204
deriving DecidableEq, Repr

/-- Oracle for the xnvme library and the device: the outcome of every
external call `main` makes.  `deviceWrites` is `some r` when the device
writes the response struct during command processing, `none` when it never
writes it (then the struct keeps its indeterminate initial stack contents
`stackRuh`; the C local `ruh_status` is declared without an initializer,
line 154). -/
structure Env where
  openOk : String → Bool
  nsid : Nat
  queueInitOk : Nat → Bool
  bufAllocOk : Bool
  sendErr : Int
  drainRes : Int
  termErr : Nat → Bool
  deviceWrites : Option RuhStatus
  stackRuh : RuhStatus

/-- Observable actions of `async_cb` (lines 35-43). -/
inductive CbEvent
  | helloMsg                                                -- line 36
  | statusDiag                                              -- xnvme_cmd_ctx_pr, line 40
  | putCmdCtx                                               -- xnvme_queue_put_cmd_ctx, line 42
deriving DecidableEq, Repr

/-- `async_cb` (lines 35-43): prints the hello line, prints the context's
completion status iff `xnvme_cmd_ctx_cpl_status(ctx)` is nonzero, then
returns the context to the queue passed as `cb_arg`. -/
def async_cb (cplStatus : Nat) : List CbEvent :=
  [CbEvent.helloMsg]
    ++ (if cplStatus ≠ 0 then [CbEvent.statusDiag] else [])
    ++ [CbEvent.putCmdCtx]

/-- The descriptor print loop `for (int i = 0; i < ruh_status.nruhsd && i < 16; i++)`
(lines 185-191), with explicit loop counter `i` and fuel: started with
`fuel = 16 - i` the fuel never runs out before the condition `i < 16` fails,
so this is exactly the C loop. -/
def ruhRowsAux (st : RuhStatus) : Nat → Nat → List RuhStatusDesc
  | _, 0 => []
  | i, fuel + 1 =>
    if i < st.nruhsd ∧ i < 16 then st.ruhss i :: ruhRowsAux st (i + 1) fuel
    else []

/-- The sequence of descriptor records the loop at lines 185-191 prints. -/
def decodeRuh (st : RuhStatus) : List RuhStatusDesc :=
  ruhRowsAux st 0 16

/-- `if (ruh_status.nruhsd > 0) { ... }` (lines 180-192): the RUH status
table is printed only when the descriptor count is positive. -/
def ruhReport (st : RuhStatus) : List Event :=
  if st.nruhsd > 0 then [Event.ruhTable (decodeRuh st)] else []

/-- The queue-initialization loop (lines 120-129).  Returns the events of
the loop and whether it ran to completion; on the first failing index the
loop body prints the error message and `main` then closes the device and
returns 1 (lines 124-126) without terminating the already-created queues. -/
def initQueuesAux (ok : Nat → Bool) : Nat → Nat → List Event × Bool
  | _, 0 => ([], true)
  | i, fuel + 1 =>
    if ok i then
      let r := initQueuesAux ok (i + 1) fuel
      (Event.queueInit i :: r.1, r.2)
    else
      ([Event.queueInitFailMsg i], false)

/-- The cleanup loop on the buffer-allocation failure path (lines 136-138):
`xnvme_queue_term(queues_[i]);` with the return value ignored. -/
def termQueuesSilent : Nat → Nat → List Event
  | _, 0 => []
  | i, fuel + 1 => Event.queueTerm i :: termQueuesSilent (i + 1) fuel

/-- The teardown loop (lines 196-201): terminate each queue in turn; a
nonzero result only prints a warning and the loop continues. -/
def termQueuesChecked (termErr : Nat → Bool) : Nat → Nat → List Event
  | _, 0 => []
  | i, fuel + 1 =>
    Event.queueTerm i ::
      ((if termErr i then [Event.queueTermWarnMsg i] else [])
        ++ termQueuesChecked termErr (i + 1) fuel)

/-- The trace of the run from successful buffer allocation (line 133) to
`return 0` (line 205), in source order: context acquisition (144-149),
management send with `mos = 1` and the local `ruh_status` as response region
(155-159), send warning on nonzero error (160-163), drain (166) and drain
warning on negative result (167-169), completion banner and mode message
(171-177), RUH table (180-192), buffer free (195), checked queue teardown
(196-201), device close (202) and the final message (204). -/
def successTrace (d : String) (mo : Nat) (env : Env) : List Event :=
  [Event.devOpenAttempt d, Event.devOpened]
    ++ (initQueuesAux env.queueInitOk 0 MAX_NR_QUEUE).1
    ++ [Event.bufAlloc, Event.ctxAcquired,
        Event.mgmtSend env.nsid mo 1 RespPtr.ruhStatusLocal]
    ++ (if env.sendErr ≠ 0 then [Event.sendWarnMsg env.sendErr] else [])
    ++ [Event.drainCall]
    ++ (if env.drainRes < 0 then [Event.drainWarnMsg env.drainRes] else [])
    ++ [Event.completeBanner,
        if mo = NVME_IOMS_MO_SUNGJIN then Event.resetMsg else Event.unchangedMsg]
    ++ ruhReport (env.deviceWrites.getD env.stackRuh)
    ++ [Event.bufFree]
    ++ termQueuesChecked env.termErr 0 MAX_NR_QUEUE
    ++ [Event.devClose, Event.doneMsg]

/-- `main` from device open onward (lines 104-205), with the operation code
`mo` already fixed by flag parsing. -/
def runDevice (d : String) (mo : Nat) (env : Env) : Int × List Event :=
  if env.openOk d then
    if (initQueuesAux env.queueInitOk 0 MAX_NR_QUEUE).2 then
      if env.bufAllocOk then
        (0, successTrace d mo env)
      else
        (1, [Event.devOpenAttempt d, Event.devOpened]
          ++ (initQueuesAux env.queueInitOk 0 MAX_NR_QUEUE).1
          ++ [Event.bufAllocFailMsg]
          ++ termQueuesSilent 0 MAX_NR_QUEUE
          ++ [Event.devClose])
    else
      (1, [Event.devOpenAttempt d, Event.devOpened]
        ++ (initQueuesAux env.queueInitOk 0 MAX_NR_QUEUE).1
        ++ [Event.devClose])
  else
    (1, [Event.devOpenAttempt d, Event.devOpenFailMsg])

/-- `main` (lines 57-206).  `argv` is the full argument vector including the
program name, so `argc = argv.length`.  Argument handling follows lines
57-83: wrong count → usage and 1; with three arguments the second is matched
against `--reset`, `--read-only`, `-h`/`--help` (usage and 0) and otherwise
the unknown-option message, usage and 1; with two arguments no flag parsing
runs and `argv[1]` is used as the device path with the default RESET mode. -/
def runMain (argv : List String) (env : Env) : Int × List Event :=
  if argv.length < 2 ∨ argv.length > 3 then
    (1, [Event.usagePrinted])
  else
    let device := argv.getD 1 ""
    if argv.length = 3 then
      let flag := argv.getD 2 ""
      if flag = "--reset" then
        runDevice device NVME_IOMS_MO_SUNGJIN env
      else if flag = "--read-only" then
        runDevice device NVME_IOMS_MO_SUNGJIN_READONLY env
      else if flag = "-h" ∨ flag = "--help" then
        (0, [Event.usagePrinted])
      else
        (1, [Event.unknownOptionMsg, Event.usagePrinted])
    else
      runDevice device NVME_IOMS_MO_SUNGJIN env

/-- Recognizer for queue-creation events. -/
def isQueueInit : Event → Bool
  | Event.queueInit _ => true
  | _ => false

/-- Recognizer for queue-termination attempts. -/
def isQueueTerm : Event → Bool
  | Event.queueTerm _ => true
  | _ => false

/-- Recognizer for the buffer-free call. -/
def isBufFree : Event → Bool
  | Event.bufFree => true
  | _ => false

/-- An all-zero descriptor, used in concrete test fixtures. -/
def descNull : RuhStatusDesc := ⟨0, 0, 0, 0⟩

/-- Response with zero descriptor count. -/
def stZero : RuhStatus := ⟨0, fun _ => descNull⟩

/-- Response claiming 200 descriptors (a misbehaving device: the struct only
has 16 slots). -/
def st200 : RuhStatus := ⟨200, fun _ => descNull⟩

/-- Residual stack contents claiming two descriptors, used to exhibit the
report printed from the never-written local struct. -/
def stResidual : RuhStatus := ⟨2, fun _ => ⟨1, 2, 3, 4⟩⟩

/-- Oracle where queue 0 initializes fine and queue 1 fails. -/
def envC1 : Env where
  openOk := fun _ => true
  nsid := 7
  queueInitOk := fun i => decide (i = 0)
  bufAllocOk := true
  sendErr := 0
  drainRes := 0
  termErr := fun _ => false
  deviceWrites := none
  stackRuh := stZero

/-- Oracle where all setup succeeds but the submission returns an error, the
drain returns a negative result and every queue termination fails. -/
def envOK : Env where
  openOk := fun _ => true
  nsid := 42
  queueInitOk := fun _ => true
  bufAllocOk := true
  sendErr := -1
  drainRes := -1
  termErr := fun _ => true
  deviceWrites := none
  stackRuh := stZero

/-- Oracle where no device can be opened. -/
def envNoOpen : Env where
  openOk := fun _ => false
  nsid := 0
  queueInitOk := fun _ => true
  bufAllocOk := true
  sendErr := 0
  drainRes := 0
  termErr := fun _ => false
  deviceWrites := none
  stackRuh := stZero

/-- Oracle where setup succeeds, the send and drain report errors, and the
device never writes the response struct, which holds `stResidual`. -/
def envResidual : Env where
  openOk := fun _ => true
  nsid := 9
  queueInitOk := fun _ => true
  bufAllocOk := true
  sendErr := 3
  drainRes := -2
  termErr := fun _ => false
  deviceWrites := none
  stackRuh := stResidual

/-! ## Helper lemmas about the loops -/

theorem initQueuesAux_of_ok (ok : Nat → Bool) :
    ∀ fuel i, (∀ j, j < fuel → ok (i + j) = true) →
      initQueuesAux ok i fuel = ((List.range' i fuel).map Event.queueInit, true) := by
  intro fuel
  induction fuel with
  | zero => intro i _; simp [initQueuesAux]
  | succ f ih =>
    intro i h
    have h0 : ok i = true := by simpa using h 0 (Nat.succ_pos f)
    have hrec := ih (i + 1) (fun j hj => by
      have hx := h (j + 1) (by omega)
      rwa [show i + (j + 1) = i + 1 + j by omega] at hx)
    simp [initQueuesAux, h0, hrec, List.range'_succ]

theorem initQueuesAux_of_fail (ok : Nat → Bool) :
    ∀ k fuel i, k < fuel → (∀ j, j < k → ok (i + j) = true) → ok (i + k) = false →
      initQueuesAux ok i fuel =
        ((List.range' i k).map Event.queueInit ++ [Event.queueInitFailMsg (i + k)], false) := by
  intro k
  induction k with
  | zero =>
    intro fuel i hk _ hfail
    cases fuel with
    | zero => omega
    | succ f =>
      simp only [Nat.add_zero] at hfail
      simp [initQueuesAux, hfail]
  | succ k ih =>
    intro fuel i hk hpre hfail
    cases fuel with
    | zero => omega
    | succ f =>
      have h0 : ok i = true := by simpa using hpre 0 (by omega)
      have hrec := ih f (i + 1) (by omega)
        (fun j hj => by
          have hx := hpre (j + 1) (by omega)
          rwa [show i + (j + 1) = i + 1 + j by omega] at hx)
        (by rwa [show i + (k + 1) = i + 1 + k by omega] at hfail)
      simp [initQueuesAux, h0, hrec, List.range'_succ]
      omega

theorem initQueuesAux_snd_iff (ok : Nat → Bool) :
    ∀ fuel i, ((initQueuesAux ok i fuel).2 = true ↔ ∀ j, j < fuel → ok (i + j) = true) := by
  intro fuel
  induction fuel with
  | zero => intro i; simp [initQueuesAux]
  | succ f ih =>
    intro i
    cases h0 : ok i with
    | false =>
      have hno : ¬ (∀ j, j < f + 1 → ok (i + j) = true) := by
        intro hall
        have := hall 0 (by omega)
        simp [h0] at this
      simp [initQueuesAux, h0, hno]
    | true =>
      have hsplit : (∀ j, j < f + 1 → ok (i + j) = true) ↔
          (∀ j, j < f → ok (i + 1 + j) = true) := by
        constructor
        · intro hall j hj
          have hx := hall (j + 1) (by omega)
          rwa [show i + (j + 1) = i + 1 + j by omega] at hx
        · intro hall j hj
          cases j with
          | zero => simpa using h0
          | succ j =>
            have hx := hall j (by omega)
            rwa [show i + 1 + j = i + (j + 1) by omega] at hx
      simp [initQueuesAux, h0, ih (i + 1), hsplit]

theorem initQueuesAux_shape (ok : Nat → Bool) :
    ∀ fuel i e, e ∈ (initQueuesAux ok i fuel).1 →
      (∃ j, e = Event.queueInit j) ∨ ∃ j, e = Event.queueInitFailMsg j := by
  intro fuel
  induction fuel with
  | zero => intro i e h; simp [initQueuesAux] at h
  | succ f ih =>
    intro i e h
    cases h0 : ok i with
    | false =>
      simp [initQueuesAux, h0] at h
      exact Or.inr ⟨i, h⟩
    | true =>
      simp only [initQueuesAux, h0, if_true, List.mem_cons] at h
      rcases h with h | h
      · exact Or.inl ⟨i, h⟩
      · exact ih (i + 1) e h

theorem termQueuesSilent_shape :
    ∀ fuel i e, e ∈ termQueuesSilent i fuel → ∃ j, e = Event.queueTerm j := by
  intro fuel
  induction fuel with
  | zero => intro i e h; simp [termQueuesSilent] at h
  | succ f ih =>
    intro i e h
    simp only [termQueuesSilent, List.mem_cons] at h
    rcases h with h | h
    · exact ⟨i, h⟩
    · exact ih (i + 1) e h

theorem termQueuesChecked_shape (te : Nat → Bool) :
    ∀ fuel i e, e ∈ termQueuesChecked te i fuel →
      (∃ j, e = Event.queueTerm j) ∨ ∃ j, e = Event.queueTermWarnMsg j := by
  intro fuel
  induction fuel with
  | zero => intro i e h; simp [termQueuesChecked] at h
  | succ f ih =>
    intro i e h
    simp only [termQueuesChecked, List.mem_cons, List.mem_append] at h
    rcases h with h | h | h
    · exact Or.inl ⟨i, h⟩
    · rcases h1 : te i with _ | _ <;> rw [h1] at h <;> simp at h
      exact Or.inr ⟨i, h⟩
    · exact ih (i + 1) e h

theorem termQueuesChecked_mem (te : Nat → Bool) :
    ∀ fuel i j, j < fuel → Event.queueTerm (i + j) ∈ termQueuesChecked te i fuel := by
  intro fuel
  induction fuel with
  | zero => intro i j hj; omega
  | succ f ih =>
    intro i j hj
    cases j with
    | zero => simp [termQueuesChecked]
    | succ j =>
      have hx := ih (i + 1) j (by omega)
      rw [show i + (j + 1) = i + 1 + j by omega]
      exact List.mem_cons_of_mem _ (List.mem_append_right _ hx)

theorem termQueuesChecked_countP (te : Nat → Bool) :
    ∀ fuel i, (termQueuesChecked te i fuel).countP isQueueTerm = fuel := by
  intro fuel
  induction fuel with
  | zero => intro i; simp [termQueuesChecked]
  | succ f ih =>
    intro i
    cases h1 : te i <;>
      simp [termQueuesChecked, h1, List.countP_cons, List.countP_append, ih, isQueueTerm]

theorem ruhRowsAux_eq (st : RuhStatus) :
    ∀ fuel i, 16 - i = fuel →
      ruhRowsAux st i fuel = (List.range' i (min st.nruhsd 16 - i)).map st.ruhss := by
  intro fuel
  induction fuel with
  | zero =>
    intro i h
    have hz : min st.nruhsd 16 - i = 0 := by omega
    simp [ruhRowsAux, hz]
  | succ f ih =>
    intro i h
    by_cases hc : i < st.nruhsd ∧ i < 16
    · have hs : min st.nruhsd 16 - i = (min st.nruhsd 16 - (i + 1)) + 1 := by omega
      simp only [ruhRowsAux, if_pos hc]
      rw [hs, List.range'_succ, List.map_cons, ih (i + 1) (by omega)]
    · have hz : min st.nruhsd 16 - i = 0 := by omega
      simp only [ruhRowsAux, if_neg hc]
      simp [hz]

theorem decodeRuh_eq (st : RuhStatus) :
    decodeRuh st = (List.range (min st.nruhsd 16)).map st.ruhss := by
  rw [decodeRuh, ruhRowsAux_eq st 16 0 rfl, List.range_eq_range']
  simp

/-! ## Helper lemmas about `runMain` and `runDevice` -/

theorem runMain_two (p d : String) (env : Env) :
    runMain [p, d] env = runDevice d NVME_IOMS_MO_SUNGJIN env := by
  simp [runMain]

theorem runMain_reset (p d : String) (env : Env) :
    runMain [p, d, "--reset"] env = runDevice d NVME_IOMS_MO_SUNGJIN env := by
  simp [runMain]

theorem runMain_readonly (p d : String) (env : Env) :
    runMain [p, d, "--read-only"] env = runDevice d NVME_IOMS_MO_SUNGJIN_READONLY env := by
  simp [runMain]

theorem runMain_shape (argv : List String) (env : Env) :
    runMain argv env = (1, [Event.usagePrinted]) ∨
    runMain argv env = (0, [Event.usagePrinted]) ∨
    runMain argv env = (1, [Event.unknownOptionMsg, Event.usagePrinted]) ∨
    ∃ d mo, runMain argv env = runDevice d mo env := by
  simp only [runMain]
  split_ifs
  · exact Or.inl rfl
  · exact Or.inr (Or.inr (Or.inr ⟨_, _, rfl⟩))
  · exact Or.inr (Or.inr (Or.inr ⟨_, _, rfl⟩))
  · exact Or.inr (Or.inl rfl)
  · exact Or.inr (Or.inr (Or.inl rfl))
  · exact Or.inr (Or.inr (Or.inr ⟨_, _, rfl⟩))

theorem runDevice_success (d : String) (mo : Nat) (env : Env)
    (hopen : env.openOk d = true)
    (hinit : ∀ i, i < MAX_NR_QUEUE → env.queueInitOk i = true)
    (halloc : env.bufAllocOk = true) :
    runDevice d mo env = (0, successTrace d mo env) := by
  have h2 : (initQueuesAux env.queueInitOk 0 MAX_NR_QUEUE).2 = true :=
    (initQueuesAux_snd_iff env.queueInitOk MAX_NR_QUEUE 0).mpr
      (fun j hj => by simpa using hinit j hj)
  simp [runDevice, hopen, h2, halloc]

theorem runDevice_fst (d : String) (mo : Nat) (env : Env) :
    (runDevice d mo env).1 =
      if env.openOk d = true ∧ (initQueuesAux env.queueInitOk 0 MAX_NR_QUEUE).2 = true
          ∧ env.bufAllocOk = true then 0 else 1 := by
  simp only [runDevice]
  split_ifs <;> simp_all

theorem mem_of_mem_ite_nil {α : Type} {c : Prop} [Decidable c] {e : α} {l : List α}
    (h : e ∈ (if c then l else [])) : e ∈ l := by
  split at h
  · exact h
  · simp at h

theorem ruhReport_mem (st : RuhStatus) (e : Event) (h : e ∈ ruhReport st) :
    0 < st.nruhsd ∧ e = Event.ruhTable (decodeRuh st) := by
  simp only [ruhReport] at h
  split at h
  · next hc => exact ⟨hc, by simpa using h⟩
  · simp at h

theorem successTrace_mem_shape (d : String) (mo : Nat) (env : Env) (e : Event)
    (h : e ∈ successTrace d mo env) :
    e = Event.devOpenAttempt d ∨ e = Event.devOpened ∨
    (∃ j, e = Event.queueInit j) ∨ (∃ j, e = Event.queueInitFailMsg j) ∨
    e = Event.bufAlloc ∨ e = Event.ctxAcquired ∨
    e = Event.mgmtSend env.nsid mo 1 RespPtr.ruhStatusLocal ∨
    e = Event.sendWarnMsg env.sendErr ∨ e = Event.drainCall ∨
    e = Event.drainWarnMsg env.drainRes ∨
    e = Event.completeBanner ∨ e = Event.resetMsg ∨ e = Event.unchangedMsg ∨
    (0 < (env.deviceWrites.getD env.stackRuh).nruhsd ∧
      e = Event.ruhTable (decodeRuh (env.deviceWrites.getD env.stackRuh))) ∨
    e = Event.bufFree ∨ (∃ j, e = Event.queueTerm j) ∨ (∃ j, e = Event.queueTermWarnMsg j) ∨
    e = Event.devClose ∨ e = Event.doneMsg := by
  simp only [successTrace, List.append_assoc, List.mem_append] at h
  rcases h with h | h | h | h | h | h | h | h | h | h | h
  · simp at h; tauto
  · rcases initQueuesAux_shape _ _ _ _ h with ⟨j, hj⟩ | ⟨j, hj⟩ <;> tauto
  · simp at h; tauto
  · have h2 := List.mem_singleton.mp (mem_of_mem_ite_nil h); tauto
  · simp at h; tauto
  · have h2 := List.mem_singleton.mp (mem_of_mem_ite_nil h); tauto
  · simp at h
    rcases h with h | h
    · tauto
    · split at h <;> tauto
  · have h2 := ruhReport_mem _ _ h; tauto
  · simp at h; tauto
  · rcases termQueuesChecked_shape _ _ _ _ h with ⟨j, hj⟩ | ⟨j, hj⟩ <;> tauto
  · simp at h; tauto

theorem runDevice_mem_shape (d : String) (mo : Nat) (env : Env) (e : Event)
    (h : e ∈ (runDevice d mo env).2) :
    e ∈ successTrace d mo env ∨
    e = Event.devOpenAttempt d ∨ e = Event.devOpened ∨ e = Event.devOpenFailMsg ∨
    e = Event.bufAllocFailMsg ∨
    (∃ j, e = Event.queueInit j) ∨ (∃ j, e = Event.queueInitFailMsg j) ∨
    (∃ j, e = Event.queueTerm j) ∨ e = Event.devClose := by
  have hini := initQueuesAux_shape env.queueInitOk MAX_NR_QUEUE 0 e
  have hterm := termQueuesSilent_shape MAX_NR_QUEUE 0 e
  simp only [runDevice] at h
  split_ifs at h
  · exact Or.inl h
  · simp only [List.append_assoc, List.mem_append, List.mem_cons, List.mem_singleton,
      List.not_mem_nil, or_false] at h
    rcases h with (h | h) | h | h | h | h
    · exact Or.inr (Or.inl h)
    · exact Or.inr (Or.inr (Or.inl h))
    · rcases hini h with ⟨j, hj⟩ | ⟨j, hj⟩
      · exact Or.inr (Or.inr (Or.inr (Or.inr (Or.inr (Or.inl ⟨j, hj⟩)))))
      · exact Or.inr (Or.inr (Or.inr (Or.inr (Or.inr (Or.inr (Or.inl ⟨j, hj⟩))))))
    · exact Or.inr (Or.inr (Or.inr (Or.inr (Or.inl h))))
    · rcases hterm h with ⟨j, hj⟩
      exact Or.inr (Or.inr (Or.inr (Or.inr (Or.inr (Or.inr (Or.inr (Or.inl ⟨j, hj⟩)))))))
    · exact Or.inr (Or.inr (Or.inr (Or.inr (Or.inr (Or.inr (Or.inr (Or.inr h)))))))
  · simp only [List.append_assoc, List.mem_append, List.mem_cons, List.mem_singleton,
      List.not_mem_nil, or_false] at h
    rcases h with (h | h) | h | h
    · exact Or.inr (Or.inl h)
    · exact Or.inr (Or.inr (Or.inl h))
    · rcases hini h with ⟨j, hj⟩ | ⟨j, hj⟩
      · exact Or.inr (Or.inr (Or.inr (Or.inr (Or.inr (Or.inl ⟨j, hj⟩)))))
      · exact Or.inr (Or.inr (Or.inr (Or.inr (Or.inr (Or.inr (Or.inl ⟨j, hj⟩))))))
    · exact Or.inr (Or.inr (Or.inr (Or.inr (Or.inr (Or.inr (Or.inr (Or.inr h)))))))
  · simp only [List.mem_cons, List.mem_singleton, List.not_mem_nil, or_false] at h
    rcases h with h | h
    · exact Or.inr (Or.inl h)
    · exact Or.inr (Or.inr (Or.inr (Or.inl h)))

theorem runDevice_mgmtSend_params (d : String) (mo : Nat) (env : Env)
    (n m s : Nat) (r : RespPtr)
    (h : Event.mgmtSend n m s r ∈ (runDevice d mo env).2) :
    n = env.nsid ∧ m = mo ∧ s = 1 ∧ r = RespPtr.ruhStatusLocal := by
  rcases runDevice_mem_shape d mo env _ h with hs | h'
  · simpa using successTrace_mem_shape d mo env _ hs
  · simp at h'

theorem runDevice_bufAlloc_mem (d : String) (mo : Nat) (env : Env)
    (h : Event.bufAlloc ∈ (runDevice d mo env).2) :
    runDevice d mo env = (0, successTrace d mo env) := by
  simp only [runDevice] at h ⊢
  split_ifs at h ⊢
  · rfl
  · exfalso
    simp [List.mem_append] at h
    rcases h with h | h
    · rcases initQueuesAux_shape _ _ _ _ h with ⟨j, hj⟩ | ⟨j, hj⟩ <;> simp at hj
    · rcases termQueuesSilent_shape _ _ _ h with ⟨j, hj⟩; simp at hj
  · exfalso
    simp [List.mem_append] at h
    rcases initQueuesAux_shape _ _ _ _ h with ⟨j, hj⟩ | ⟨j, hj⟩ <;> simp at hj
  · exfalso
    simp at h

theorem successTrace_countP_isBufFree (d : String) (mo : Nat) (env : Env) :
    (successTrace d mo env).countP isBufFree = 1 := by
  have hini : (initQueuesAux env.queueInitOk 0 MAX_NR_QUEUE).1.countP isBufFree = 0 :=
    List.countP_eq_zero.mpr (fun e he => by
      rcases initQueuesAux_shape _ _ _ _ he with ⟨j, hj⟩ | ⟨j, hj⟩ <;> simp [hj, isBufFree])
  have hterm : (termQueuesChecked env.termErr 0 MAX_NR_QUEUE).countP isBufFree = 0 :=
    List.countP_eq_zero.mpr (fun e he => by
      rcases termQueuesChecked_shape _ _ _ _ he with ⟨j, hj⟩ | ⟨j, hj⟩ <;> simp [hj, isBufFree])
  by_cases hm : mo = NVME_IOMS_MO_SUNGJIN <;>
    simp [successTrace, ruhReport, List.countP_append, List.countP_cons, hini, hterm, isBufFree,
      hm, apply_ite (List.countP isBufFree), ite_self]

theorem successTrace_sublist_free_close (d : String) (mo : Nat) (env : Env) :
    List.Sublist [Event.bufFree, Event.devClose] (successTrace d mo env) := by
  have hy : [Event.devClose].Sublist
      (termQueuesChecked env.termErr 0 MAX_NR_QUEUE ++ [Event.devClose, Event.doneMsg]) :=
    List.singleton_sublist.mpr (by simp)
  have hx := hy.cons₂ Event.bufFree
  have hsplit : successTrace d mo env =
      ([Event.devOpenAttempt d, Event.devOpened]
        ++ (initQueuesAux env.queueInitOk 0 MAX_NR_QUEUE).1
        ++ [Event.bufAlloc, Event.ctxAcquired,
            Event.mgmtSend env.nsid mo 1 RespPtr.ruhStatusLocal]
        ++ (if env.sendErr ≠ 0 then [Event.sendWarnMsg env.sendErr] else [])
        ++ [Event.drainCall]
        ++ (if env.drainRes < 0 then [Event.drainWarnMsg env.drainRes] else [])
        ++ [Event.completeBanner,
            if mo = NVME_IOMS_MO_SUNGJIN then Event.resetMsg else Event.unchangedMsg]
        ++ ruhReport (env.deviceWrites.getD env.stackRuh))
      ++ (Event.bufFree ::
          (termQueuesChecked env.termErr 0 MAX_NR_QUEUE ++ [Event.devClose, Event.doneMsg])) := by
    simp [successTrace, List.append_assoc]
  rw [hsplit]
  exact hx.trans (List.sublist_append_right _ _)

theorem successTrace_mem_mgmtSend (d : String) (mo : Nat) (env : Env) :
    Event.mgmtSend env.nsid mo 1 RespPtr.ruhStatusLocal ∈ successTrace d mo env := by
  simp [successTrace]

/-! ## Claims -/

/-- C1 counterexample: the claim "if queue initialization fails at index k
after queues 0..k-1 were created, every queue 0..k-1 is terminated before
the error exit" is false on the code.  With an oracle where queue 0
initializes successfully and queue 1 fails, the program exits with status 1
and the trace records the creation of queue 0 and the failure message for
queue 1, but contains no queue-termination attempt at all (termination
count 0), so queue 0's command-context pool is leaked. -/
theorem C1_counterexample :
    (runMain ["fdp_stats", "/dev/nvme0n1"] envC1).1 = 1 ∧
    Event.queueInit 0 ∈ (runMain ["fdp_stats", "/dev/nvme0n1"] envC1).2 ∧
    Event.queueInitFailMsg 1 ∈ (runMain ["fdp_stats", "/dev/nvme0n1"] envC1).2 ∧
    (runMain ["fdp_stats", "/dev/nvme0n1"] envC1).2.countP isQueueTerm = 0 := by
  decide

/-- C1 (amended): for every queue index k < 128, if queue initialization
fails at index k after queues 0..k-1 were created successfully, the program
prints the failure message, closes the device and returns exit status 1
WITHOUT terminating queues 0..k-1: the error path (lines 123-127) performs
no queue termination, so the partially created pool is leaked.  The whole
trace is given, so in particular it contains no `queueTerm` event. -/
theorem C1_init_failure_leaks_queues (env : Env) (k : Nat) (p d : String)
    (hopen : env.openOk d = true) (hk : k < MAX_NR_QUEUE)
    (hpre : ∀ j, j < k → env.queueInitOk j = true)
    (hfail : env.queueInitOk k = false) :
    runMain [p, d] env =
      (1, [Event.devOpenAttempt d, Event.devOpened]
        ++ (List.range' 0 k).map Event.queueInit
        ++ [Event.queueInitFailMsg k, Event.devClose]) := by
  have hini := initQueuesAux_of_fail env.queueInitOk k MAX_NR_QUEUE 0 hk
    (fun j hj => by simpa using hpre j hj) (by simpa using hfail)
  have hsnd : (initQueuesAux env.queueInitOk 0 MAX_NR_QUEUE).2 = false := by rw [hini]
  rw [runMain_two]
  simp [runDevice, hopen, hsnd, hini]

/-- C1 witness: the amended theorem applied at the concrete oracle `envC1`
(first failure at k = 1). -/
theorem C1_init_failure_leaks_queues_witness :
    runMain ["fdp_stats", "/dev/nvme0n1"] envC1 =
      (1, [Event.devOpenAttempt "/dev/nvme0n1", Event.devOpened]
        ++ (List.range' 0 1).map Event.queueInit
        ++ [Event.queueInitFailMsg 1, Event.devClose]) :=
  C1_init_failure_leaks_queues envC1 1 "fdp_stats" "/dev/nvme0n1" rfl (by decide)
    (by decide) (by decide)

/-- C2 (confirmed): with a valid argument vector, the exit status is 0
exactly when device open, all 128 queue initializations and the buffer
allocation succeed — the oracle's submission error, drain result and
termination failures are arbitrary, so they cannot influence the status —
and 1 when any of those setup steps fails; wrong argument count and unknown
flags also yield status 1. -/
theorem C2_exit_codes (argv : List String) (env : Env) :
    (argv.length = 2 ∨ (argv.length = 3 ∧
        (argv.getD 2 "" = "--reset" ∨ argv.getD 2 "" = "--read-only")) →
      (runMain argv env).1 =
        if env.openOk (argv.getD 1 "") = true
            ∧ (∀ i, i < MAX_NR_QUEUE → env.queueInitOk i = true)
            ∧ env.bufAllocOk = true then 0 else 1) ∧
    (argv.length < 2 ∨ argv.length > 3 → (runMain argv env).1 = 1) ∧
    (argv.length = 3 → argv.getD 2 "" ≠ "--reset" → argv.getD 2 "" ≠ "--read-only" →
      argv.getD 2 "" ≠ "-h" → argv.getD 2 "" ≠ "--help" → (runMain argv env).1 = 1) := by
  have key : ∀ d mo, (runDevice d mo env).1 =
      if env.openOk d = true ∧ (∀ i, i < MAX_NR_QUEUE → env.queueInitOk i = true)
          ∧ env.bufAllocOk = true then 0 else 1 := by
    intro d mo
    rw [runDevice_fst]
    refine if_congr ?_ rfl rfl
    have hiff := initQueuesAux_snd_iff env.queueInitOk MAX_NR_QUEUE 0
    constructor
    · rintro ⟨h1, h2, h3⟩
      exact ⟨h1, fun i hi => by simpa using (hiff.mp h2) i hi, h3⟩
    · rintro ⟨h1, h2, h3⟩
      exact ⟨h1, hiff.mpr (fun j hj => by simpa using h2 j hj), h3⟩
  refine ⟨?_, ?_, ?_⟩
  · intro hv
    rcases hv with h2 | ⟨h3, hf⟩
    · obtain ⟨a, b, rfl⟩ := List.length_eq_two.mp h2
      rw [runMain_two]
      exact key b _
    · obtain ⟨a, b, c, rfl⟩ := List.length_eq_three.mp h3
      have hc : [a, b, c].getD 2 "" = c := rfl
      rw [hc] at hf
      rcases hf with hf | hf <;> subst hf
      · rw [runMain_reset]
        exact key b _
      · rw [runMain_readonly]
        exact key b _
  · intro h
    have hrw : runMain argv env = (1, [Event.usagePrinted]) := by
      unfold runMain
      rw [if_pos h]
    rw [hrw]
  · intro h3 hf1 hf2 hf3 hf4
    obtain ⟨a, b, c, rfl⟩ := List.length_eq_three.mp h3
    have hc : [a, b, c].getD 2 "" = c := rfl
    rw [hc] at hf1 hf2 hf3 hf4
    simp only [runMain]
    simp [hf1, hf2, hf3, hf4]

/-- C2 witness: the success clause applied at an oracle where the
submission returns -1, the drain returns -1 and every queue termination
fails, yet the run exits with status 0. -/
theorem C2_exit_codes_witness : (runMain ["fdp_stats", "/dev/nvme0n1"] envOK).1 = 0 := by
  have h := (C2_exit_codes ["fdp_stats", "/dev/nvme0n1"] envOK).1 (Or.inl rfl)
  rw [h]
  simp [envOK]

/-- C3 (confirmed): the status-decoding loop emits exactly
min(nruhsd, 16) descriptor records for every value of `nruhsd`; in
particular `nruhsd = 200` yields 16 records and `nruhsd = 0` yields the
empty sequence with no table printed at all; and the output never depends
on a descriptor slot at index ≥ 16 (two responses agreeing on `nruhsd` and
on the first 16 slots decode identically). -/
theorem C3_decoder_clamps (st st' : RuhStatus) :
    (decodeRuh st).length = min st.nruhsd 16 ∧
    (st.nruhsd = 200 → (decodeRuh st).length = 16) ∧
    (st.nruhsd = 0 → decodeRuh st = [] ∧ ruhReport st = []) ∧
    (st'.nruhsd = st.nruhsd → (∀ i, i < 16 → st'.ruhss i = st.ruhss i) →
      decodeRuh st' = decodeRuh st) := by
  refine ⟨?_, ?_, ?_, ?_⟩
  · rw [decodeRuh_eq]
    simp
  · intro h
    rw [decodeRuh_eq, h]
    rfl
  · intro h
    constructor
    · rw [decodeRuh_eq, h]
      rfl
    · simp [ruhReport, h]
  · intro hn hag
    rw [decodeRuh_eq, decodeRuh_eq, hn]
    exact List.map_congr_left (fun i hi => hag i (by
      have := List.mem_range.mp hi
      omega))

/-- C3 witness: the clamp evaluated at concrete responses with
`nruhsd = 200` and `nruhsd = 0`. -/
theorem C3_decoder_clamps_witness :
    (decodeRuh st200).length = 16 ∧ decodeRuh stZero = [] ∧ ruhReport stZero = [] := by
  refine ⟨(C3_decoder_clamps st200 st200).2.1 rfl, ?_, ?_⟩
  · exact ((C3_decoder_clamps stZero stZero).2.2.1 rfl).1
  · exact ((C3_decoder_clamps stZero stZero).2.2.1 rfl).2

theorem successTrace_countP_isQueueInit (d : String) (mo : Nat) (env : Env)
    (hinit : ∀ i, i < MAX_NR_QUEUE → env.queueInitOk i = true) :
    (successTrace d mo env).countP isQueueInit = MAX_NR_QUEUE := by
  have hini := initQueuesAux_of_ok env.queueInitOk MAX_NR_QUEUE 0
    (fun j hj => by simpa using hinit j hj)
  have hterm : (termQueuesChecked env.termErr 0 MAX_NR_QUEUE).countP isQueueInit = 0 :=
    List.countP_eq_zero.mpr (fun e he => by
      rcases termQueuesChecked_shape _ _ _ _ he with ⟨j, hj⟩ | ⟨j, hj⟩ <;>
        simp [hj, isQueueInit])
  have hcomp : (isQueueInit ∘ Event.queueInit) = fun _ => true := funext (fun _ => rfl)
  by_cases hm : mo = NVME_IOMS_MO_SUNGJIN <;>
    simp [successTrace, ruhReport, hini, hterm, List.countP_append, List.countP_cons,
      isQueueInit, hm, apply_ite (List.countP isQueueInit), ite_self, List.countP_map,
      hcomp, List.countP_true, List.length_range']

theorem successTrace_countP_isQueueTerm (d : String) (mo : Nat) (env : Env)
    (hinit : ∀ i, i < MAX_NR_QUEUE → env.queueInitOk i = true) :
    (successTrace d mo env).countP isQueueTerm = MAX_NR_QUEUE := by
  have hini := initQueuesAux_of_ok env.queueInitOk MAX_NR_QUEUE 0
    (fun j hj => by simpa using hinit j hj)
  have hterm := termQueuesChecked_countP env.termErr MAX_NR_QUEUE 0
  by_cases hm : mo = NVME_IOMS_MO_SUNGJIN <;>
    simp [successTrace, ruhReport, hini, hterm, List.countP_append, List.countP_cons,
      isQueueTerm, hm, apply_ite (List.countP isQueueTerm), ite_self, List.countP_map,
      Function.comp]

theorem successTrace_mem_queueInit (d : String) (mo : Nat) (env : Env)
    (hinit : ∀ i, i < MAX_NR_QUEUE → env.queueInitOk i = true)
    (i : Nat) (hi : i < MAX_NR_QUEUE) :
    Event.queueInit i ∈ successTrace d mo env := by
  have hini := initQueuesAux_of_ok env.queueInitOk MAX_NR_QUEUE 0
    (fun j hj => by simpa using hinit j hj)
  have hm : Event.queueInit i ∈ (initQueuesAux env.queueInitOk 0 MAX_NR_QUEUE).1 := by
    rw [hini]
    simp only [List.mem_map, List.mem_range'_1]
    exact ⟨i, by omega, rfl⟩
  simp only [successTrace, List.append_assoc, List.mem_append]
  tauto

theorem successTrace_mem_queueTerm (d : String) (mo : Nat) (env : Env)
    (i : Nat) (hi : i < MAX_NR_QUEUE) :
    Event.queueTerm i ∈ successTrace d mo env := by
  have hm : Event.queueTerm i ∈ termQueuesChecked env.termErr 0 MAX_NR_QUEUE := by
    simpa using termQueuesChecked_mem env.termErr MAX_NR_QUEUE 0 i hi
  simp only [successTrace, List.append_assoc, List.mem_append]
  tauto

theorem runMain_success (argv : List String) (env : Env)
    (hv : argv.length = 2 ∨ (argv.length = 3 ∧
      (argv.getD 2 "" = "--reset" ∨ argv.getD 2 "" = "--read-only")))
    (hopen : env.openOk (argv.getD 1 "") = true)
    (hinit : ∀ i, i < MAX_NR_QUEUE → env.queueInitOk i = true)
    (halloc : env.bufAllocOk = true) :
    ∃ mo, runMain argv env = (0, successTrace (argv.getD 1 "") mo env) := by
  rcases hv with h2 | ⟨h3, hf⟩
  · obtain ⟨a, b, rfl⟩ := List.length_eq_two.mp h2
    exact ⟨_, by rw [runMain_two]; exact runDevice_success b _ env hopen hinit halloc⟩
  · obtain ⟨a, b, c, rfl⟩ := List.length_eq_three.mp h3
    have hc : [a, b, c].getD 2 "" = c := rfl
    rw [hc] at hf
    rcases hf with hf | hf <;> subst hf
    · exact ⟨_, by rw [runMain_reset]; exact runDevice_success b _ env hopen hinit halloc⟩
    · exact ⟨_, by rw [runMain_readonly]; exact runDevice_success b _ env hopen hinit halloc⟩

/-- C4 (confirmed): on every run whose setup succeeds, exactly
MAX_NR_QUEUE = 128 queue-creation events and exactly 128 queue-termination
attempts occur, one per index; the oracle's per-queue termination failures
(`env.termErr`, arbitrary here) cannot suppress any termination attempt. -/
theorem C4_pool_counts (argv : List String) (env : Env)
    (hv : argv.length = 2 ∨ (argv.length = 3 ∧
      (argv.getD 2 "" = "--reset" ∨ argv.getD 2 "" = "--read-only")))
    (hopen : env.openOk (argv.getD 1 "") = true)
    (hinit : ∀ i, i < MAX_NR_QUEUE → env.queueInitOk i = true)
    (halloc : env.bufAllocOk = true) :
    (runMain argv env).2.countP isQueueInit = MAX_NR_QUEUE ∧
    (runMain argv env).2.countP isQueueTerm = MAX_NR_QUEUE ∧
    (∀ i, i < MAX_NR_QUEUE →
      Event.queueInit i ∈ (runMain argv env).2 ∧
      Event.queueTerm i ∈ (runMain argv env).2) := by
  obtain ⟨mo, hrun⟩ := runMain_success argv env hv hopen hinit halloc
  rw [hrun]
  refine ⟨successTrace_countP_isQueueInit _ _ _ hinit,
    successTrace_countP_isQueueTerm _ _ _ hinit, ?_⟩
  intro i hi
  exact ⟨successTrace_mem_queueInit _ _ _ hinit i hi,
    successTrace_mem_queueTerm _ _ _ i hi⟩

/-- C4 witness: the counts at a concrete successful run in which every
queue termination fails (`envOK.termErr` is constantly true): still 128
creation events and 128 termination attempts. -/
theorem C4_pool_counts_witness :
    (runMain ["fdp_stats", "/dev/nvme0n1"] envOK).2.countP isQueueInit = MAX_NR_QUEUE ∧
    (runMain ["fdp_stats", "/dev/nvme0n1"] envOK).2.countP isQueueTerm = MAX_NR_QUEUE := by
  have h := C4_pool_counts ["fdp_stats", "/dev/nvme0n1"] envOK (Or.inl rfl) rfl
    (fun i _ => rfl) rfl
  exact ⟨h.1, h.2.1⟩

/-- C5 (confirmed): on every execution path, the management command's
response region is the fixed-size local status struct, never the allocated
buffer; and whenever the buffer allocation succeeded (the `bufAlloc` event
occurred), exactly one buffer free occurs and a free followed later by the
device close is a subsequence of the trace. -/
theorem C5_buffer_pairing (argv : List String) (env : Env) :
    (∀ n m s r, Event.mgmtSend n m s r ∈ (runMain argv env).2 →
      r = RespPtr.ruhStatusLocal) ∧
    (Event.bufAlloc ∈ (runMain argv env).2 →
      (runMain argv env).2.countP isBufFree = 1 ∧
      List.Sublist [Event.bufFree, Event.devClose] (runMain argv env).2) := by
  rcases runMain_shape argv env with h | h | h | ⟨d, mo, h⟩ <;> rw [h]
  · exact ⟨fun n m s r hm => by simp at hm, fun hm => by simp at hm⟩
  · exact ⟨fun n m s r hm => by simp at hm, fun hm => by simp at hm⟩
  · exact ⟨fun n m s r hm => by simp at hm, fun hm => by simp at hm⟩
  · refine ⟨fun n m s r hm => (runDevice_mgmtSend_params d mo env n m s r hm).2.2.2, ?_⟩
    intro hm
    have hs := runDevice_bufAlloc_mem d mo env hm
    rw [hs]
    exact ⟨successTrace_countP_isBufFree d mo env, successTrace_sublist_free_close d mo env⟩

set_option maxRecDepth 10000 in
/-- C5 witness: at a concrete successful run the allocation happened and
the trace contains exactly one buffer free. -/
theorem C5_buffer_pairing_witness :
    (runMain ["fdp_stats", "/dev/nvme0n1"] envOK).2.countP isBufFree = 1 :=
  ((C5_buffer_pairing ["fdp_stats", "/dev/nvme0n1"] envOK).2 (by decide)).1

/-- C6 (confirmed): the submitted management command uses operation code
0x02 with no flag and with `--reset`, 0x10 with `--read-only`; the select
field is always 1 and the namespace id is the one the oracle reports for
the opened device (`env.nsid`), on every invocation that reaches
submission. -/
theorem C6_command_params (p d : String) (env : Env)
    (hopen : env.openOk d = true)
    (hinit : ∀ i, i < MAX_NR_QUEUE → env.queueInitOk i = true)
    (halloc : env.bufAllocOk = true) :
    Event.mgmtSend env.nsid NVME_IOMS_MO_SUNGJIN 1 RespPtr.ruhStatusLocal
        ∈ (runMain [p, d] env).2 ∧
    Event.mgmtSend env.nsid NVME_IOMS_MO_SUNGJIN 1 RespPtr.ruhStatusLocal
        ∈ (runMain [p, d, "--reset"] env).2 ∧
    Event.mgmtSend env.nsid NVME_IOMS_MO_SUNGJIN_READONLY 1 RespPtr.ruhStatusLocal
        ∈ (runMain [p, d, "--read-only"] env).2 ∧
    (∀ flag n m s r, Event.mgmtSend n m s r ∈ (runMain [p, d, flag] env).2 →
      n = env.nsid ∧ s = 1) ∧
    (∀ n m s r, Event.mgmtSend n m s r ∈ (runMain [p, d] env).2 →
      n = env.nsid ∧ m = NVME_IOMS_MO_SUNGJIN ∧ s = 1) := by
  have hA := runDevice_success d NVME_IOMS_MO_SUNGJIN env hopen hinit halloc
  have hB := runDevice_success d NVME_IOMS_MO_SUNGJIN_READONLY env hopen hinit halloc
  refine ⟨?_, ?_, ?_, ?_, ?_⟩
  · rw [runMain_two, hA]
    exact successTrace_mem_mgmtSend d _ env
  · rw [runMain_reset, hA]
    exact successTrace_mem_mgmtSend d _ env
  · rw [runMain_readonly, hB]
    exact successTrace_mem_mgmtSend d _ env
  · intro flag n m s r hm
    rcases runMain_shape [p, d, flag] env with h | h | h | ⟨d', mo', h⟩ <;> rw [h] at hm
    · simp at hm
    · simp at hm
    · simp at hm
    · have hx := runDevice_mgmtSend_params d' mo' env n m s r hm
      exact ⟨hx.1, hx.2.2.1⟩
  · intro n m s r hm
    rw [runMain_two] at hm
    have hx := runDevice_mgmtSend_params d NVME_IOMS_MO_SUNGJIN env n m s r hm
    exact ⟨hx.1, hx.2.1, hx.2.2.1⟩

/-- C6 witness: the default-mode submission event at a concrete successful
run. -/
theorem C6_command_params_witness :
    Event.mgmtSend envOK.nsid NVME_IOMS_MO_SUNGJIN 1 RespPtr.ruhStatusLocal
      ∈ (runMain ["fdp_stats", "/dev/nvme0n1"] envOK).2 :=
  (C6_command_params "fdp_stats" "/dev/nvme0n1" envOK rfl (fun _ _ => rfl) rfl).1

/-- C7 (confirmed): fewer than 1 or more than 2 program arguments yields
exactly the usage message and exit status 1, and an unknown second argument
yields exactly the unknown-option message, the usage message and status 1;
in both cases the full trace is given, so no device interaction occurs. -/
theorem C7_argument_errors (argv : List String) (env : Env) :
    (argv.length < 2 ∨ argv.length > 3 →
      runMain argv env = (1, [Event.usagePrinted])) ∧
    (argv.length = 3 → argv.getD 2 "" ≠ "--reset" → argv.getD 2 "" ≠ "--read-only" →
      argv.getD 2 "" ≠ "-h" → argv.getD 2 "" ≠ "--help" →
      runMain argv env = (1, [Event.unknownOptionMsg, Event.usagePrinted])) := by
  constructor
  · intro h
    unfold runMain
    rw [if_pos h]
  · intro h3 hf1 hf2 hf3 hf4
    obtain ⟨a, b, c, rfl⟩ := List.length_eq_three.mp h3
    have hc : [a, b, c].getD 2 "" = c := rfl
    rw [hc] at hf1 hf2 hf3 hf4
    simp only [runMain]
    simp [hf1, hf2, hf3, hf4]

/-- C7 witness: a run with no device argument and a run with an unknown
flag. -/
theorem C7_argument_errors_witness :
    runMain ["fdp_stats"] envOK = (1, [Event.usagePrinted]) ∧
    runMain ["fdp_stats", "/dev/nvme0n1", "--bogus"] envOK =
      (1, [Event.unknownOptionMsg, Event.usagePrinted]) :=
  ⟨(C7_argument_errors ["fdp_stats"] envOK).1 (by decide),
   (C7_argument_errors ["fdp_stats", "/dev/nvme0n1", "--bogus"] envOK).2 rfl
     (by decide) (by decide) (by decide) (by decide)⟩

/-- C8 (confirmed): the completion callback prints the context's completion
status diagnostic exactly when the status is nonzero, and returns the
context to its owning queue exactly once per invocation on both branches. -/
theorem C8_async_cb_contract (s : Nat) :
    (CbEvent.statusDiag ∈ async_cb s ↔ s ≠ 0) ∧
    (async_cb s).count CbEvent.putCmdCtx = 1 := by
  by_cases h : s = 0
  · subst h
    exact ⟨by decide, by decide⟩
  · have hl : async_cb s = [CbEvent.helloMsg, CbEvent.statusDiag, CbEvent.putCmdCtx] := by
      simp [async_cb, h]
    rw [hl]
    exact ⟨⟨fun _ => h, fun _ => by decide⟩, by decide⟩

/-- C8 witness: the callback contract evaluated at a nonzero status and at
a zero status. -/
theorem C8_async_cb_contract_witness :
    (CbEvent.statusDiag ∈ async_cb 7 ↔ (7 : Nat) ≠ 0) ∧
    (async_cb 7).count CbEvent.putCmdCtx = 1 ∧
    (CbEvent.statusDiag ∈ async_cb 0 ↔ (0 : Nat) ≠ 0) :=
  ⟨(C8_async_cb_contract 7).1, (C8_async_cb_contract 7).2, (C8_async_cb_contract 0).1⟩

/-- C9 (confirmed): with exactly two program arguments, no flag parsing
runs, so a lone `-h` or `--help` is used as the device path: the program
attempts to open a device with that name and, when the open fails, exits
with status 1; the trace shows the open attempt and contains no usage
printing, so the help path (exit 0) is not taken. -/
theorem C9_lone_help_is_device (p s : String) (env : Env)
    (_hs : s = "-h" ∨ s = "--help") (hopen : env.openOk s = false) :
    runMain [p, s] env = (1, [Event.devOpenAttempt s, Event.devOpenFailMsg]) := by
  rw [runMain_two]
  simp [runDevice, hopen]

/-- C9 witness: invoking with a lone `-h` on an oracle where no device can
be opened. -/
theorem C9_lone_help_is_device_witness :
    runMain ["fdp_stats", "-h"] envNoOpen =
      (1, [Event.devOpenAttempt "-h", Event.devOpenFailMsg]) :=
  C9_lone_help_is_device "fdp_stats" "-h" envNoOpen (Or.inl rfl) rfl

/-- C10 (confirmed): once setup succeeds the completion report is printed
unconditionally — `env.sendErr` and `env.drainRes` are arbitrary, so errors
from the send or the drain cannot suppress it.  When the device never
writes the response struct (`deviceWrites = none`), the printed values come
from the indeterminate initial stack contents `env.stackRuh` (the local is
declared without an initializer): the table appears, decoded from
`stackRuh`, exactly when `stackRuh.nruhsd > 0`. -/
theorem C10_report_unconditional (p d : String) (env : Env)
    (hopen : env.openOk d = true)
    (hinit : ∀ i, i < MAX_NR_QUEUE → env.queueInitOk i = true)
    (halloc : env.bufAllocOk = true)
    (hwrite : env.deviceWrites = none) :
    Event.completeBanner ∈ (runMain [p, d] env).2 ∧
    Event.resetMsg ∈ (runMain [p, d] env).2 ∧
    (0 < env.stackRuh.nruhsd →
      Event.ruhTable (decodeRuh env.stackRuh) ∈ (runMain [p, d] env).2) ∧
    (env.stackRuh.nruhsd = 0 → ∀ ds, Event.ruhTable ds ∉ (runMain [p, d] env).2) := by
  rw [runMain_two, runDevice_success d _ env hopen hinit halloc]
  refine ⟨?_, ?_, ?_, ?_⟩
  · simp [successTrace]
  · simp [successTrace]
  · intro hpos
    simp [successTrace, ruhReport, hwrite, hpos]
  · intro hz ds hm
    have hx := successTrace_mem_shape d _ env _ hm
    simp [hwrite, hz] at hx

/-- C10 witness: a run where the send returned 3 and the drain returned -2,
yet the banner is printed and the table shows the two descriptors decoded
from the residual stack contents. -/
theorem C10_report_unconditional_witness :
    Event.completeBanner ∈ (runMain ["fdp_stats", "/dev/nvme0n1"] envResidual).2 ∧
    Event.ruhTable (decodeRuh stResidual)
      ∈ (runMain ["fdp_stats", "/dev/nvme0n1"] envResidual).2 := by
  have h := C10_report_unconditional "fdp_stats" "/dev/nvme0n1" envResidual rfl
    (fun i _ => rfl) rfl rfl
  exact ⟨h.1, h.2.2.1 (by decide)⟩

end FdpStats
